import Mathlib

/-!
Verification of the profit/loss accounting engine of a peer-to-peer trade
tracker.  The definitions below are a shallow embedding of the JavaScript
source: the ProfitCalculator service (calculateFIFOProfit,
calculateAverageProfit, setMethod), the CSV row validation (transformRow,
parseCSV) and the weekly rollups of the pnl routes (aggregateToWeekly and
the inline grouping of the /weekly route handler).  JavaScript numbers are
modelled as rationals; division by zero is totalised to 0 (the concrete
inputs used in the theorems never divide by zero, so the model agrees with
the source exactly on them).
-/

set_option allowUnsafeReducibility true

attribute [semireducible] Rat.add Rat.mul Rat.sub Rat.div Rat.inv Rat.ofScientific

/-- JavaScript Math.round: round half toward positive infinity. -/
def jsRound (q : ℚ) : ℤ := (q + 1 / 2).floor

theorem jsRound_eq_floor (q : ℚ) : jsRound q = ⌊q + 1 / 2⌋ := by
  rw [jsRound, Rat.floor_def', Rat.floor_def]

/-- The 2-decimal output rounding used by the summaries:
Math.round(x * 100) / 100. -/
def round2 (q : ℚ) : ℚ := (jsRound (q * 100) : ℚ) / 100

/-- A rational that is an integer number of hundredths (exactly 2 decimal
places). -/
def isCent (q : ℚ) : Prop := ∃ n : ℤ, q = (n : ℚ) / 100

/-- A trade record as consumed by the profit calculator: side is the raw
string ("BUY" / "SELL" / anything else is ignored by both methods). -/
structure TradeR where
  side : String
  amount : ℚ
  price : ℚ
  totalFiat : ℚ
  feeFiat : ℚ
deriving Repr, DecidableEq

/-- An open buy lot on the FIFO queue: exactly the fields
calculateFIFOProfit pushes.  The amount field is mutated in place as the
lot is consumed; no separate original amount is kept. -/
structure Lot where
  amount : ℚ
  price : ℚ
  totalFiat : ℚ
  feeFiat : ℚ
deriving Repr, DecidableEq

/-- The realized profit summary returned by both methods. -/
structure Summary where
  realizedProfitFiat : ℚ
  totalBuyFiat : ℚ
  totalSellFiat : ℚ
  totalBuyAmount : ℚ
  totalSellAmount : ℚ
  avgBuyPrice : ℚ
  avgSellPrice : ℚ
  inventoryRemaining : ℚ
  method : String
deriving Repr, DecidableEq

/-- The unrounded aggregates of a summary, before the output rounding. -/
structure RawTotals where
  realizedProfit : ℚ
  totalBuyFiat : ℚ
  totalSellFiat : ℚ
  totalBuyAmount : ℚ
  totalSellAmount : ℚ
  avgBuyPrice : ℚ
  avgSellPrice : ℚ
  inventoryRemaining : ℚ
deriving Repr, DecidableEq

/-- Rounding every numeric field of the raw totals to 2 decimals, the single
rounding step both methods apply at their return statement. -/
def roundSummary (method : String) (r : RawTotals) : Summary :=
  { realizedProfitFiat := round2 r.realizedProfit
    totalBuyFiat := round2 r.totalBuyFiat
    totalSellFiat := round2 r.totalSellFiat
    totalBuyAmount := round2 r.totalBuyAmount
    totalSellAmount := round2 r.totalSellAmount
    avgBuyPrice := round2 r.avgBuyPrice
    avgSellPrice := round2 r.avgSellPrice
    inventoryRemaining := round2 r.inventoryRemaining
    method := method }

/-- Sum of totalFiat over the BUY trades (the totalBuyFiat accumulator). -/
def buyFiatSum (ts : List TradeR) : ℚ :=
  ((ts.filter (fun t => t.side = "BUY")).map (fun t => t.totalFiat)).sum

/-- Sum of amount over the BUY trades (the totalBuyAmount accumulator). -/
def buyAmountSum (ts : List TradeR) : ℚ :=
  ((ts.filter (fun t => t.side = "BUY")).map (fun t => t.amount)).sum

/-- Sum of totalFiat over the SELL trades (the totalSellFiat accumulator). -/
def sellFiatSum (ts : List TradeR) : ℚ :=
  ((ts.filter (fun t => t.side = "SELL")).map (fun t => t.totalFiat)).sum

/-- Sum of amount over the SELL trades (the totalSellAmount accumulator). -/
def sellAmountSum (ts : List TradeR) : ℚ :=
  ((ts.filter (fun t => t.side = "SELL")).map (fun t => t.amount)).sum

/-- First pass of calculateFIFOProfit: each BUY is pushed on the queue as an
open lot carrying its amount, price, totalFiat and feeFiat. -/
def fifoBuys (ts : List TradeR) : List Lot :=
  (ts.filter (fun t => t.side = "BUY")).map
    (fun t => { amount := t.amount, price := t.price,
                totalFiat := t.totalFiat, feeFiat := t.feeFiat })

/-- First pass of calculateFIFOProfit: the SELL trades, in input order. -/
def fifoSells (ts : List TradeR) : List TradeR :=
  ts.filter (fun t => t.side = "SELL")

/-- Net profit of one matched slice: gross profit (sellPrice - lotPrice) *
consumed, minus the buy fee prorated over the lot's CURRENT amount
(consumed / lot.amount, read before the decrement), minus the sell fee
prorated over the sell's amount. -/
def sliceNet (sellPrice sellAmount sellFee consumed : ℚ) (lot : Lot) : ℚ :=
  (sellPrice - lot.price) * consumed
    - consumed / lot.amount * lot.feeFiat
    - consumed / sellAmount * sellFee

/-- The inner while loop of calculateFIFOProfit for one sell: while the sell
has unconsumed amount and the queue is non-empty, consume
min(remaining, head.amount) from the head lot; pop the head when its amount
reaches exactly zero.  When the head is not popped the consumed amount
equals the whole remainder, so the loop exits on the next test; the
recursion mirrors that exactly. -/
def sellLoop (sellPrice sellAmount sellFee rem : ℚ) :
    List Lot → ℚ × List Lot
  | [] => (0, [])
  | lot :: rest =>
    if 0 < rem then
      let consumed := min rem lot.amount
      let net := sliceNet sellPrice sellAmount sellFee consumed lot
      if lot.amount - consumed = 0 then
        let r := sellLoop sellPrice sellAmount sellFee (rem - consumed) rest
        (net + r.1, r.2)
      else
        (net, { lot with amount := lot.amount - consumed } :: rest)
    else (0, lot :: rest)

/-- Second pass of calculateFIFOProfit: fold the sells over the queue,
accumulating realized profit. -/
def fifoProcess (sells : List TradeR) (queue : List Lot) : ℚ × List Lot :=
  sells.foldl
    (fun acc s =>
      let r := sellLoop s.price s.amount s.feeFiat s.amount acc.2
      (acc.1 + r.1, r.2))
    (0, queue)

/-- The unrounded aggregates computed by calculateFIFOProfit. -/
def fifoRaw (ts : List TradeR) : RawTotals :=
  let p := fifoProcess (fifoSells ts) (fifoBuys ts)
  let tbf := buyFiatSum ts
  let tba := buyAmountSum ts
  let tsf := sellFiatSum ts
  let tsa := sellAmountSum ts
  { realizedProfit := p.1
    totalBuyFiat := tbf
    totalSellFiat := tsf
    totalBuyAmount := tba
    totalSellAmount := tsa
    avgBuyPrice := if 0 < tba then tbf / tba else 0
    avgSellPrice := if 0 < tsa then tsf / tsa else 0
    inventoryRemaining := (p.2.map (fun l => l.amount)).sum }

/-- calculateFIFOProfit: FIFO matching, then every summary field rounded to
2 decimals at the return statement. -/
def calculateFIFOProfit (ts : List TradeR) : Summary :=
  roundSummary "FIFO" (fifoRaw ts)

/-- The running state of calculateAverageProfit. -/
structure AvgState where
  totalBuyFiat : ℚ
  totalSellFiat : ℚ
  totalBuyAmount : ℚ
  totalSellAmount : ℚ
  realizedProfit : ℚ
  weightedAverageCost : ℚ
deriving Repr, DecidableEq

/-- One trade of calculateAverageProfit's forEach: a BUY recomputes the
weighted average cost from the sums including this buy, then adds the buy
into the running sums; a SELL realizes (price - wac) * amount minus its own
fee and minus the excess-fee share, which is guarded by
weightedAverageCost > 0 (not by totalBuyAmount > 0), then decrements
totalBuyAmount by the sell amount. -/
def avgStep (st : AvgState) (t : TradeR) : AvgState :=
  if t.side = "BUY" then
    { st with
      weightedAverageCost :=
        (st.totalBuyFiat + t.totalFiat) / (st.totalBuyAmount + t.amount)
      totalBuyFiat := st.totalBuyFiat + t.totalFiat
      totalBuyAmount := st.totalBuyAmount + t.amount }
  else if t.side = "SELL" then
    let gross := (t.price - st.weightedAverageCost) * t.amount
    let fees := t.feeFiat +
      (if 0 < st.weightedAverageCost then
          t.amount / st.totalBuyAmount *
            (st.totalBuyFiat - st.totalBuyAmount * st.weightedAverageCost)
        else 0)
    { st with
      realizedProfit := st.realizedProfit + (gross - fees)
      totalSellFiat := st.totalSellFiat + t.totalFiat
      totalSellAmount := st.totalSellAmount + t.amount
      totalBuyAmount := st.totalBuyAmount - t.amount }
  else st

/-- The zero-initialised state of calculateAverageProfit. -/
def avgInit : AvgState :=
  { totalBuyFiat := 0, totalSellFiat := 0, totalBuyAmount := 0,
    totalSellAmount := 0, realizedProfit := 0, weightedAverageCost := 0 }

/-- The final fold state of calculateAverageProfit over a trade list. -/
def avgRun (ts : List TradeR) : AvgState := ts.foldl avgStep avgInit

/-- The unrounded aggregates computed by calculateAverageProfit; note
inventoryRemaining is the (sell-decremented) totalBuyAmount itself. -/
def avgRaw (ts : List TradeR) : RawTotals :=
  let st := avgRun ts
  { realizedProfit := st.realizedProfit
    totalBuyFiat := st.totalBuyFiat
    totalSellFiat := st.totalSellFiat
    totalBuyAmount := st.totalBuyAmount
    totalSellAmount := st.totalSellAmount
    avgBuyPrice := if 0 < st.totalBuyAmount
      then st.totalBuyFiat / st.totalBuyAmount else 0
    avgSellPrice := if 0 < st.totalSellAmount
      then st.totalSellFiat / st.totalSellAmount else 0
    inventoryRemaining := st.totalBuyAmount }

/-- calculateAverageProfit: weighted-average accumulation, then every
summary field rounded to 2 decimals at the return statement. -/
def calculateAverageProfit (ts : List TradeR) : Summary :=
  roundSummary "AVERAGE" (avgRaw ts)

/-- An open lot as the specification describes it: the original amount and
the fee for the original amount are kept alongside the shrinking remainder.
This definition follows the specification's words (for comparison with the
source's Lot, which keeps no original amount) and is used to settle the
fee-proration refinement claim. -/
structure SpecLot where
  remainingAmount : ℚ
  originalAmount : ℚ
  unitPrice : ℚ
  totalFee : ℚ
deriving Repr, DecidableEq

/-- FIFO matching loop as the specification words it: the buy-fee slice of
each consumed portion is consumed / originalAmount * totalFee. -/
def specSellLoop (sellPrice sellAmount sellFee rem : ℚ) :
    List SpecLot → ℚ × List SpecLot
  | [] => (0, [])
  | lot :: rest =>
    if 0 < rem then
      let consumed := min rem lot.remainingAmount
      let net := (sellPrice - lot.unitPrice) * consumed
        - consumed / lot.originalAmount * lot.totalFee
        - consumed / sellAmount * sellFee
      if lot.remainingAmount - consumed = 0 then
        let r := specSellLoop sellPrice sellAmount sellFee (rem - consumed) rest
        (net + r.1, r.2)
      else
        (net, { lot with remainingAmount := lot.remainingAmount - consumed } :: rest)
    else (0, lot :: rest)

/-- Total FIFO realized profit under the specification's original-amount fee
proration, before rounding. -/
def specFifoRealizedProfit (ts : List TradeR) : ℚ :=
  let lots := (ts.filter (fun t => t.side = "BUY")).map
    (fun t => SpecLot.mk t.amount t.amount t.price t.feeFiat)
  ((fifoSells ts).foldl
    (fun acc s =>
      let r := specSellLoop s.price s.amount s.feeFiat s.amount acc.2
      (acc.1 + r.1, r.2))
    ((0 : ℚ), lots)).1

/-- The AVERAGE step as the specification words it: the excess-buy-fee share
is taken as zero whenever the running buy amount is not positive (the source
instead guards on the weighted average cost being positive). -/
def specAvgStep (st : AvgState) (t : TradeR) : AvgState :=
  if t.side = "BUY" then
    { st with
      weightedAverageCost :=
        (st.totalBuyFiat + t.totalFiat) / (st.totalBuyAmount + t.amount)
      totalBuyFiat := st.totalBuyFiat + t.totalFiat
      totalBuyAmount := st.totalBuyAmount + t.amount }
  else if t.side = "SELL" then
    let gross := (t.price - st.weightedAverageCost) * t.amount
    let fees := t.feeFiat +
      (if 0 < st.totalBuyAmount then
          t.amount / st.totalBuyAmount *
            (st.totalBuyFiat - st.totalBuyAmount * st.weightedAverageCost)
        else 0)
    { st with
      realizedProfit := st.realizedProfit + (gross - fees)
      totalSellFiat := st.totalSellFiat + t.totalFiat
      totalSellAmount := st.totalSellAmount + t.amount
      totalBuyAmount := st.totalBuyAmount - t.amount }
  else st

/-- AVERAGE realized profit under the specification's buy-amount guard,
before rounding. -/
def specAvgRealizedProfit (ts : List TradeR) : ℚ :=
  (ts.foldl specAvgStep avgInit).realizedProfit

/-- setMethod: accept exactly FIFO and AVERAGE, otherwise throw the
descriptive invalid-method error. -/
def setMethod (m : String) : Except String String :=
  if m = "FIFO" ∨ m = "AVERAGE" then Except.ok m
  else Except.error "Invalid method. Must be FIFO or AVERAGE"

/-- The orchestration of the summary route: the method is validated first;
on failure the caller gets the error and no summary, otherwise the selected
calculator runs over the trades. -/
def computeRealizedProfit (m : String) (ts : List TradeR) :
    Except String Summary :=
  match setMethod m with
  | Except.error e => Except.error e
  | Except.ok m2 =>
    Except.ok (if m2 = "FIFO" then calculateFIFOProfit ts
      else calculateAverageProfit ts)

/-- Day-of-week of a calendar day counted in days from 1970-01-01 (which was
a Thursday): 0 is Sunday .. 6 is Saturday, as JavaScript getDay returns. -/
def jsDayOfWeek (d : ℤ) : ℤ := (d + 4) % 7

/-- getWeekStart of the pnl routes: d.getDate() - day + (day === 0 ? -6 : 1),
the Monday of the week containing the day. -/
def getWeekStart (d : ℤ) : ℤ :=
  if jsDayOfWeek d = 0 then d - 6 else d - (jsDayOfWeek d - 1)

/-- The week start used inline by the /weekly route handler:
date.getDate() - date.getDay(), the Sunday of the week containing the day. -/
def weekStartSunday (d : ℤ) : ℤ := d - jsDayOfWeek d

/-- One point of the daily time series, as produced by getProfitTimeSeries.
The date is a day count from 1970-01-01. -/
structure DayPoint where
  date : ℤ
  buyAmount : ℚ
  sellAmount : ℚ
  buyFiat : ℚ
  sellFiat : ℚ
  dailyProfit : ℚ
  cumulativeProfit : ℚ
deriving Repr, DecidableEq

/-- A weekly bucket of aggregateToWeekly. -/
structure WeekBucket where
  weekStart : ℤ
  buyAmount : ℚ
  sellAmount : ℚ
  buyFiat : ℚ
  sellFiat : ℚ
  dailyProfit : ℚ
  cumulativeProfit : ℚ
deriving Repr, DecidableEq

/-- Folding one day into a bucket: amounts, fiat and dailyProfit are summed,
cumulativeProfit is overwritten with the day's value (last day wins). -/
def bucketAdd (b : WeekBucket) (d : DayPoint) : WeekBucket :=
  { b with
    buyAmount := b.buyAmount + d.buyAmount
    sellAmount := b.sellAmount + d.sellAmount
    buyFiat := b.buyFiat + d.buyFiat
    sellFiat := b.sellFiat + d.sellFiat
    dailyProfit := b.dailyProfit + d.dailyProfit
    cumulativeProfit := d.cumulativeProfit }

/-- Update the keyed bucket collection (a JavaScript object in insertion
order): fold the day into the bucket keyed k, creating it zeroed if absent. -/
def updateBuckets (k : ℤ) (d : DayPoint) :
    List WeekBucket → List WeekBucket
  | [] => [bucketAdd ⟨k, 0, 0, 0, 0, 0, 0⟩ d]
  | b :: bs =>
    if b.weekStart = k then bucketAdd b d :: bs
    else b :: updateBuckets k d bs

/-- Insertion into a list kept sorted by weekStart ascending. -/
def insortBucket (b : WeekBucket) : List WeekBucket → List WeekBucket
  | [] => [b]
  | c :: cs =>
    if b.weekStart ≤ c.weekStart then b :: c :: cs else c :: insortBucket b cs

/-- The final ascending sort of Object.values by weekStart. -/
def sortBuckets (l : List WeekBucket) : List WeekBucket :=
  l.foldr insortBucket []

/-- aggregateToWeekly: key each day by the Monday week start, sum amounts,
fiat and dailyProfit per bucket, carry the last day's cumulativeProfit, and
return the buckets sorted by weekStart. -/
def aggregateToWeekly (ds : List DayPoint) : List WeekBucket :=
  sortBuckets (ds.foldl (fun acc d => updateBuckets (getWeekStart d.date) d acc) [])

/-- A weekly bucket of the /weekly route handler (weekEnd and the inventory
and avgCost fields, absent from the daily series, are omitted). -/
structure RouteWeekBucket where
  weekStart : ℤ
  cumulativeProfit : ℚ
  weeklyProfit : ℚ
deriving Repr, DecidableEq

/-- The /weekly route handler's per-day update: cumulativeProfit AND
weeklyProfit are both overwritten with the current day's values (plain
assignment, not summation). -/
def routeWeekUpdate (k : ℤ) (d : DayPoint) :
    List RouteWeekBucket → List RouteWeekBucket
  | [] => [⟨k, d.cumulativeProfit, d.dailyProfit⟩]
  | b :: bs =>
    if b.weekStart = k then ⟨b.weekStart, d.cumulativeProfit, d.dailyProfit⟩ :: bs
    else b :: routeWeekUpdate k d bs

/-- Insertion into a list kept sorted by weekStart ascending. -/
def insortRouteBucket (b : RouteWeekBucket) :
    List RouteWeekBucket → List RouteWeekBucket
  | [] => [b]
  | c :: cs =>
    if b.weekStart ≤ c.weekStart then b :: c :: cs else c :: insortRouteBucket b cs

/-- The weekly grouping done inline by the /weekly route handler: days are
keyed by the SUNDAY week start and each field is overwritten by the last
day of the bucket. -/
def routeWeekly (ds : List DayPoint) : List RouteWeekBucket :=
  (ds.foldl (fun acc d => routeWeekUpdate (weekStartSunday d.date) d acc) []).foldr
    insortRouteBucket []

/-- A raw numeric CSV cell: absent (or empty), present but not parseable as
a number (parseFloat yields NaN), or a parsed value. -/
inductive RawNum where
  | absent : RawNum
  | invalid : RawNum
  | val : ℚ → RawNum
deriving Repr, DecidableEq

/-- A raw CSV row restricted to the fields the validation claims concern;
string cells are None when the column is absent or empty. -/
structure RawRow where
  orderId : Option String
  side : Option String
  price : RawNum
  amount : RawNum
  totalFiat : RawNum
  feeFiat : RawNum
deriving Repr, DecidableEq

/-- A validated trade row as transformRow returns it. -/
structure ParsedTrade where
  orderId : String
  side : String
  price : ℚ
  amount : ℚ
  totalFiat : ℚ
  feeFiat : ℚ
deriving Repr, DecidableEq

/-- Numeric-cell transform of transformRow: an absent cell is skipped (the
field stays unset), a NaN or negative parse throws (the row is dropped),
otherwise the value is kept. -/
def parseNum : RawNum → Option (Option ℚ)
  | RawNum.absent => some none
  | RawNum.invalid => none
  | RawNum.val q => if q < 0 then none else some (some q)

/-- JavaScript toUpperCase on the character list of the string. -/
def jsToUpper (s : String) : String := String.mk (s.data.map Char.toUpper)

/-- Side-cell transform of transformRow: absent stays unset, a present value
is uppercased and must be BUY or SELL or the row is dropped. -/
def transformSide : Option String → Option (Option String)
  | none => some none
  | some s =>
    let u := jsToUpper s
    if u = "BUY" ∨ u = "SELL" then some (some u) else none

/-- The required-field check for a numeric field: JavaScript falsiness makes
an unset field and a zero value both fail the check. -/
def requireNum (o : Option ℚ) : Option ℚ := do
  let q ← o
  if q = 0 then none else some q

/-- The required-field check for a string field: unset and empty both fail. -/
def requireStr (o : Option String) : Option String := do
  let s ← o
  if s = "" then none else some s

/-- transformRow: map and validate each cell (any validation error drops the
whole row, returning none), then enforce the required fields orderId, side,
price, amount, totalFiat, then default feeFiat to 0. -/
def transformRow (r : RawRow) : Option ParsedTrade := do
  let sideOpt ← transformSide r.side
  let priceOpt ← parseNum r.price
  let amountOpt ← parseNum r.amount
  let totalOpt ← parseNum r.totalFiat
  let feeOpt ← parseNum r.feeFiat
  let oid ← requireStr r.orderId
  let side ← sideOpt
  let price ← requireNum priceOpt
  let amount ← requireNum amountOpt
  let total ← requireNum totalOpt
  some ⟨oid, side, price, amount, total, feeOpt.getD 0⟩

/-- parseCSV: every row is transformed independently; rows whose transform
fails are dropped and parsing continues with the remaining rows. -/
def parseCSV (rows : List RawRow) : List ParsedTrade :=
  rows.filterMap transformRow

/-- A raw numeric cell that the validation must reject: absent, unparseable,
or non-positive. -/
def badNum : RawNum → Bool
  | RawNum.absent => true
  | RawNum.invalid => true
  | RawNum.val q => decide (q ≤ 0)

/-- Buys at prices 10 and 20 for amounts 5 and 5 followed by a sell of
amount 5 at price 30, all fee-free: the FIFO lot-order test sequence. -/
def c1Trades : List TradeR :=
  [⟨"BUY", 5, 10, 50, 0⟩, ⟨"BUY", 5, 20, 100, 0⟩, ⟨"SELL", 5, 30, 150, 0⟩]

/-- A buy of 10 units carrying fee 10, fully consumed by two fee-free sells
of 5 units each at the buy price: isolates the buy-fee proration. -/
def c2Trades : List TradeR :=
  [⟨"BUY", 10, 10, 100, 10⟩, ⟨"SELL", 5, 10, 50, 0⟩, ⟨"SELL", 5, 10, 50, 0⟩]

/-- A buy of 10 units oversold by a sell of 20, followed by a further sell
of 5 while the running buy amount is negative: isolates the guard of the
excess-fee share. -/
def c3Trades : List TradeR :=
  [⟨"BUY", 10, 10, 100, 0⟩, ⟨"SELL", 20, 10, 200, 0⟩, ⟨"SELL", 5, 10, 50, 0⟩]

/-- Buys of amount 10 at price 10 and amount 10 at price 20 followed by a
sell of 5 at price 20: the weighted-average example sequence. -/
def c3AvgTrades : List TradeR :=
  [⟨"BUY", 10, 10, 100, 0⟩, ⟨"BUY", 10, 20, 200, 0⟩, ⟨"SELL", 5, 20, 100, 0⟩]

/-- A buy of 5 partially sold by a sell of 3. -/
def c4Trades : List TradeR :=
  [⟨"BUY", 5, 10, 50, 0⟩, ⟨"SELL", 3, 10, 30, 0⟩]

/-- A buy of 5 oversold by a sell of 8. -/
def c5Trades : List TradeR :=
  [⟨"BUY", 5, 10, 50, 0⟩, ⟨"SELL", 8, 12, 96, 0⟩]

/-- Day 5 of the epoch (Tuesday 1970-01-06) with daily profit 10. -/
def c6RouteDayA : DayPoint := ⟨5, 0, 0, 0, 0, 10, 10⟩

/-- Day 6 of the epoch (Wednesday 1970-01-07) with daily profit 25. -/
def c6RouteDayB : DayPoint := ⟨6, 0, 0, 0, 0, 25, 35⟩

/-- Monday 1970-01-05, daily profit 10, cumulative 10. -/
def c6DayA : DayPoint := ⟨4, 1, 2, 3, 4, 10, 10⟩

/-- Tuesday 1970-01-06, daily profit 15, cumulative 25. -/
def c6DayB : DayPoint := ⟨5, 0, 0, 0, 0, 15, 25⟩

/-- Wednesday 1970-01-07, daily profit 15, cumulative 40. -/
def c6DayC : DayPoint := ⟨6, 2, 0, 1, 0, 15, 40⟩

/-- A fully valid CSV row (lowercase side, absent fee). -/
def c9GoodRow : RawRow :=
  ⟨some "o1", some "buy", RawNum.val 10, RawNum.val 5, RawNum.val 50,
   RawNum.absent⟩

/-- A CSV row whose amount parses negative. -/
def c9BadRow : RawRow :=
  ⟨some "o2", some "SELL", RawNum.val 10, RawNum.val (-5), RawNum.val 50,
   RawNum.val 0⟩

/-- A malformed trade record (negative amount) fed straight to the profit
computation. -/
def c9MalformedTrade : TradeR := ⟨"BUY", -5, 10, -50, 0⟩

/-- A buy of 4 oversold by a sell of 9, all amounts non-negative. -/
def c10OversoldTrades : List TradeR :=
  [⟨"BUY", 4, 10, 40, 0⟩, ⟨"SELL", 9, 11, 99, 0⟩]

/-- A buy of 5 oversold by a sell of 9, all amounts non-negative. -/
def c10WitnessTrades : List TradeR :=
  [⟨"BUY", 5, 10, 50, 0⟩, ⟨"SELL", 9, 11, 99, 0⟩]

/-! ### Helper lemmas -/

theorem round2_nonneg (q : ℚ) (h : 0 ≤ q) : 0 ≤ round2 q := by
  rw [round2, jsRound_eq_floor]
  have h1 : (0 : ℤ) ≤ ⌊q * 100 + 1 / 2⌋ := by
    rw [Int.le_floor]
    push_cast
    nlinarith
  have h2 : (0 : ℚ) ≤ (⌊q * 100 + 1 / 2⌋ : ℚ) := by exact_mod_cast h1
  positivity

theorem round2_nonpos (q : ℚ) (h : q < 0) : round2 q ≤ 0 := by
  rw [round2, jsRound_eq_floor]
  have h1 : ⌊q * 100 + 1 / 2⌋ ≤ 0 := by
    have : ⌊q * 100 + 1 / 2⌋ < 1 := by
      rw [Int.floor_lt]
      push_cast
      nlinarith
    omega
  have h2 : ((⌊q * 100 + 1 / 2⌋ : ℤ) : ℚ) ≤ 0 := by exact_mod_cast h1
  have h100 : (0 : ℚ) ≤ 100 := by norm_num
  exact div_nonpos_of_nonpos_of_nonneg h2 h100

theorem isCent_round2 (q : ℚ) : isCent (round2 q) := ⟨jsRound (q * 100), rfl⟩

theorem sellLoop_nil (sp sa sf rem : ℚ) : sellLoop sp sa sf rem [] = (0, []) :=
  rfl

theorem sellLoop_not_pos (sp sa sf rem : ℚ) (lot : Lot) (rest : List Lot)
    (h : ¬0 < rem) : sellLoop sp sa sf rem (lot :: rest) = (0, lot :: rest) := by
  simp [sellLoop, h]

theorem sellLoop_head_keep (sp sa sf rem : ℚ) (lot : Lot) (rest : List Lot)
    (h1 : 0 < rem) (h2 : rem < lot.amount) :
    sellLoop sp sa sf rem (lot :: rest)
      = (sliceNet sp sa sf rem lot,
         { lot with amount := lot.amount - rem } :: rest) := by
  have hmin : min rem lot.amount = rem := min_eq_left h2.le
  have hne : lot.amount - rem ≠ 0 := sub_ne_zero.mpr (ne_of_gt h2)
  simp [sellLoop, h1, hmin, hne]

theorem sellLoop_exhaust (sp sa sf rem : ℚ) (lot : Lot) (rest : List Lot)
    (h1 : 0 < rem) (h2 : lot.amount ≤ rem) :
    sellLoop sp sa sf rem (lot :: rest)
      = (sliceNet sp sa sf lot.amount lot
           + (sellLoop sp sa sf (rem - lot.amount) rest).1,
         (sellLoop sp sa sf (rem - lot.amount) rest).2) := by
  have hmin : min rem lot.amount = lot.amount := min_eq_right h2
  simp [sellLoop, h1, hmin]

theorem buyFiatSum_cons (t : TradeR) (ts : List TradeR) :
    buyFiatSum (t :: ts)
      = (if t.side = "BUY" then t.totalFiat else 0) + buyFiatSum ts := by
  simp only [buyFiatSum, List.filter_cons]
  split_ifs with h <;> simp_all

theorem buyAmountSum_cons (t : TradeR) (ts : List TradeR) :
    buyAmountSum (t :: ts)
      = (if t.side = "BUY" then t.amount else 0) + buyAmountSum ts := by
  simp only [buyAmountSum, List.filter_cons]
  split_ifs with h <;> simp_all

theorem sellFiatSum_cons (t : TradeR) (ts : List TradeR) :
    sellFiatSum (t :: ts)
      = (if t.side = "SELL" then t.totalFiat else 0) + sellFiatSum ts := by
  simp only [sellFiatSum, List.filter_cons]
  split_ifs with h <;> simp_all

theorem sellAmountSum_cons (t : TradeR) (ts : List TradeR) :
    sellAmountSum (t :: ts)
      = (if t.side = "SELL" then t.amount else 0) + sellAmountSum ts := by
  simp only [sellAmountSum, List.filter_cons]
  split_ifs with h <;> simp_all

theorem avgFold_totals (ts : List TradeR) (st : AvgState) :
    (ts.foldl avgStep st).totalBuyFiat = st.totalBuyFiat + buyFiatSum ts ∧
    (ts.foldl avgStep st).totalSellFiat = st.totalSellFiat + sellFiatSum ts ∧
    (ts.foldl avgStep st).totalSellAmount
        = st.totalSellAmount + sellAmountSum ts ∧
    (ts.foldl avgStep st).totalBuyAmount
        = st.totalBuyAmount + buyAmountSum ts - sellAmountSum ts := by
  induction ts generalizing st with
  | nil =>
    simp [buyFiatSum, sellFiatSum, buyAmountSum, sellAmountSum]
  | cons t ts ih =>
    obtain ⟨ih1, ih2, ih3, ih4⟩ := ih (avgStep st t)
    rw [List.foldl_cons, buyFiatSum_cons, sellFiatSum_cons, buyAmountSum_cons,
      sellAmountSum_cons]
    by_cases hb : t.side = "BUY"
    · refine ⟨?_, ?_, ?_, ?_⟩ <;>
        simp only [ih1, ih2, ih3, ih4] <;> simp [avgStep, hb] <;> ring
    · by_cases hs : t.side = "SELL"
      · refine ⟨?_, ?_, ?_, ?_⟩ <;>
          simp only [ih1, ih2, ih3, ih4] <;> simp [avgStep, hb, hs] <;> ring
      · refine ⟨?_, ?_, ?_, ?_⟩ <;>
          simp only [ih1, ih2, ih3, ih4] <;> simp [avgStep, hb, hs]

theorem sellLoop_snd_nonneg (sp sa sf : ℚ) (queue : List Lot) :
    ∀ rem : ℚ, (∀ l ∈ queue, 0 ≤ l.amount) →
      ∀ l ∈ (sellLoop sp sa sf rem queue).2, 0 ≤ l.amount := by
  induction queue with
  | nil =>
    intro rem _ l hl
    rw [sellLoop_nil] at hl
    simp at hl
  | cons lot rest ih =>
    intro rem hq l hl
    by_cases h1 : 0 < rem
    · by_cases h2 : rem < lot.amount
      · rw [sellLoop_head_keep sp sa sf rem lot rest h1 h2] at hl
        rcases List.mem_cons.mp hl with h | h
        · subst h
          simp only
          have := hq lot (List.mem_cons_self lot rest)
          linarith
        · exact hq l (List.mem_cons_of_mem lot h)
      · push_neg at h2
        rw [sellLoop_exhaust sp sa sf rem lot rest h1 h2] at hl
        exact ih (rem - lot.amount)
          (fun x hx => hq x (List.mem_cons_of_mem lot hx)) l hl
    · rw [sellLoop_not_pos sp sa sf rem lot rest h1] at hl
      exact hq l hl

theorem fifoProcess_snd_nonneg (sells : List TradeR) :
    ∀ acc : ℚ × List Lot, (∀ l ∈ acc.2, 0 ≤ l.amount) →
      ∀ l ∈ (sells.foldl
        (fun acc s =>
          let r := sellLoop s.price s.amount s.feeFiat s.amount acc.2
          (acc.1 + r.1, r.2)) acc).2, 0 ≤ l.amount := by
  induction sells with
  | nil => intro acc h l hl; exact h l hl
  | cons s sells ih =>
    intro acc h l hl
    rw [List.foldl_cons] at hl
    refine ih (acc.1 + (sellLoop s.price s.amount s.feeFiat s.amount acc.2).1,
        (sellLoop s.price s.amount s.feeFiat s.amount acc.2).2) ?_ l hl
    exact sellLoop_snd_nonneg s.price s.amount s.feeFiat acc.2 s.amount h

theorem weeklyFold_single (ds : List DayPoint) (b : WeekBucket)
    (h : ∀ e ∈ ds, getWeekStart e.date = b.weekStart) :
    ds.foldl (fun acc d => updateBuckets (getWeekStart d.date) d acc) [b]
      = [{ weekStart := b.weekStart,
           buyAmount := b.buyAmount + (ds.map (fun e => e.buyAmount)).sum,
           sellAmount := b.sellAmount + (ds.map (fun e => e.sellAmount)).sum,
           buyFiat := b.buyFiat + (ds.map (fun e => e.buyFiat)).sum,
           sellFiat := b.sellFiat + (ds.map (fun e => e.sellFiat)).sum,
           dailyProfit := b.dailyProfit + (ds.map (fun e => e.dailyProfit)).sum,
           cumulativeProfit :=
             (ds.map (fun e => e.cumulativeProfit)).getLastD
               b.cumulativeProfit }] := by
  induction ds generalizing b with
  | nil => simp
  | cons d ds ih =>
    have hd : getWeekStart d.date = b.weekStart := h d (List.mem_cons_self d ds)
    rw [List.foldl_cons]
    have hupd : updateBuckets (getWeekStart d.date) d [b] = [bucketAdd b d] := by
      simp [updateBuckets, hd]
    rw [hupd]
    rw [ih (bucketAdd b d)
      (fun e he => by rw [h e (List.mem_cons_of_mem d he)]; rfl)]
    simp only [bucketAdd, List.map_cons, List.sum_cons, List.getLastD_cons]
    refine congrArg (fun x => [x]) ?_
    congr 1 <;> ring

/-! ### Claim theorems -/

/-- C1: each SELL is matched against the open lots strictly in arrival
order, oldest first: the head lot absorbs min(remaining, head amount) and
is popped exactly when its remaining amount reaches zero, the tail being
untouched until the head is exhausted; with zero fees, buys at prices
[10, 20] for amounts [5, 5] and a sell of 5 at price 30 realize
(30 - 10) * 5 = 100, not (30 - 20) * 5 = 50. -/
theorem c1_fifo_oldest_first :
    (∀ sp sa sf rem (lot : Lot) (rest : List Lot), 0 < rem →
      rem < lot.amount →
      sellLoop sp sa sf rem (lot :: rest)
        = (sliceNet sp sa sf rem lot,
           { lot with amount := lot.amount - rem } :: rest)) ∧
    (∀ sp sa sf rem (lot : Lot) (rest : List Lot), 0 < rem →
      lot.amount ≤ rem →
      sellLoop sp sa sf rem (lot :: rest)
        = (sliceNet sp sa sf lot.amount lot
             + (sellLoop sp sa sf (rem - lot.amount) rest).1,
           (sellLoop sp sa sf (rem - lot.amount) rest).2)) ∧
    (calculateFIFOProfit c1Trades).realizedProfitFiat = 100 ∧
    (calculateFIFOProfit c1Trades).realizedProfitFiat ≠ (30 - 20) * 5 :=
  ⟨fun sp sa sf rem lot rest h1 h2 =>
      sellLoop_head_keep sp sa sf rem lot rest h1 h2,
   fun sp sa sf rem lot rest h1 h2 =>
      sellLoop_exhaust sp sa sf rem lot rest h1 h2,
   by decide, by decide⟩

/-- C1 witness: the two matching-step clauses evaluated on a concrete head
lot of amount 5 at price 10, by a partial sell of 2 and an exhausting sell
of 7. -/
theorem c1_fifo_oldest_first_witness :
    sellLoop 30 5 0 2 [Lot.mk 5 10 50 0]
        = (sliceNet 30 5 0 2 (Lot.mk 5 10 50 0), [Lot.mk 3 10 50 0]) ∧
    sellLoop 30 7 0 7 [Lot.mk 5 10 50 0]
        = (sliceNet 30 7 0 5 (Lot.mk 5 10 50 0)
             + (sellLoop 30 7 0 2 []).1,
           (sellLoop 30 7 0 2 []).2) := by
  constructor
  · have h := c1_fifo_oldest_first.1 30 5 0 2 (Lot.mk 5 10 50 0) []
      (by decide) (by decide)
    simpa using h
  · have h := c1_fifo_oldest_first.2.1 30 7 0 7 (Lot.mk 5 10 50 0) []
      (by decide) (by decide)
    simpa using h

/-- C2 counterexample: on a buy of 10 units with fee 10 consumed by two
sells of 5 at the buy price, the source charges the second slice the fee
share (5 / 5) * 10 = 10 (proportional to the lot's remaining amount),
totalling -15, while the claimed original-amount proration
(5 / 10) * 10 = 5 per slice totals -10. -/
theorem c2_fee_proration_counterexample :
    (calculateFIFOProfit c2Trades).realizedProfitFiat = -15 ∧
    round2 (specFifoRealizedProfit c2Trades) = -10 ∧
    (calculateFIFOProfit c2Trades).realizedProfitFiat
      ≠ round2 (specFifoRealizedProfit c2Trades) :=
  ⟨by decide, by decide, by decide⟩

/-- C2 amended: the buy-fee slice is proportional to the lot's CURRENT
remaining amount, consumed / lot.amount * lot.feeFiat, with feeFiat the
full original fee; consequently a lot of amount a and fee f consumed by a
partial sell of x and then a sell of the remaining a - x is charged
(x / a) * f + f in total, not f. -/
theorem c2_fee_proration_amended (a x f p : ℚ) (hx : 0 < x) (hxa : x < a) :
    (fifoProcess
        [⟨"SELL", x, p, x * p, 0⟩, ⟨"SELL", a - x, p, (a - x) * p, 0⟩]
        [⟨a, p, a * p, f⟩]).1 = -(x / a * f + f) := by
  have hax : 0 < a - x := sub_pos.mpr hxa
  have hane : a - x ≠ 0 := ne_of_gt hax
  have step1 : sellLoop p x 0 x [Lot.mk a p (a * p) f]
      = (sliceNet p x 0 x (Lot.mk a p (a * p) f),
         [Lot.mk (a - x) p (a * p) f]) := by
    have h := sellLoop_head_keep p x 0 x (Lot.mk a p (a * p) f) [] hx hxa
    simpa using h
  have step2 : sellLoop p (a - x) 0 (a - x) [Lot.mk (a - x) p (a * p) f]
      = (sliceNet p (a - x) 0 (a - x) (Lot.mk (a - x) p (a * p) f), []) := by
    have h := sellLoop_exhaust p (a - x) 0 (a - x) (Lot.mk (a - x) p (a * p) f)
      [] hax (le_refl (a - x))
    simpa [sellLoop_nil] using h
  simp only [fifoProcess, List.foldl_cons, List.foldl_nil]
  simp [step1, step2, sliceNet, div_self hane]
  ring

/-- C2 amended witness: a lot of 10 units with fee 10, sold as 5 then 5 at
the buy price, is charged 15 in buy fees. -/
theorem c2_fee_proration_amended_witness :
    (fifoProcess
        [⟨"SELL", 5, 10, 5 * 10, 0⟩, ⟨"SELL", 10 - 5, 10, (10 - 5) * 10, 0⟩]
        [⟨10, 10, 10 * 10, 10⟩]).1 = -(5 / 10 * 10 + 10) :=
  c2_fee_proration_amended 10 5 10 10 (by decide) (by decide)

/-- C3 counterexample: after a buy of 10 at price 10 and an oversell of 20,
the running buy amount is -10 while the weighted average cost is still 10;
the next sell of 5 then receives the share (5 / -10) * (100 - (-10) * 10)
= -100, so the source realizes 100, whereas the claimed guard (share zero
whenever the running buy amount is not positive) realizes 0. -/
theorem c3_average_guard_counterexample :
    (calculateAverageProfit c3Trades).realizedProfitFiat = 100 ∧
    round2 (specAvgRealizedProfit c3Trades) = 0 ∧
    (calculateAverageProfit c3Trades).realizedProfitFiat
      ≠ round2 (specAvgRealizedProfit c3Trades) :=
  ⟨by decide, by decide, by decide⟩

/-- C3 amended: the weighted average cost is recomputed on every BUY from
the sums including that buy before the totals are updated, and every SELL
contributes (price - wac) * amount minus its own fee and minus the
excess-fee share (amount / runningBuyAmount) * (runningBuyFiat -
runningBuyAmount * wac) — but that share is taken as zero whenever the
weighted average cost (not the running buy amount) is not positive; buys
[10 @ 10, 10 @ 20] give wac 15 and a following sell of 5 @ 20 realizes
25. -/
theorem c3_average_guard_amended :
    (∀ (st : AvgState) (t : TradeR), t.side = "BUY" →
      avgStep st t = { st with
        weightedAverageCost :=
          (st.totalBuyFiat + t.totalFiat) / (st.totalBuyAmount + t.amount)
        totalBuyFiat := st.totalBuyFiat + t.totalFiat
        totalBuyAmount := st.totalBuyAmount + t.amount }) ∧
    (∀ (st : AvgState) (t : TradeR), t.side = "SELL" →
      avgStep st t = { st with
        realizedProfit := st.realizedProfit +
          ((t.price - st.weightedAverageCost) * t.amount -
            (t.feeFiat +
              (if 0 < st.weightedAverageCost then
                  t.amount / st.totalBuyAmount *
                    (st.totalBuyFiat -
                      st.totalBuyAmount * st.weightedAverageCost)
                else 0)))
        totalSellFiat := st.totalSellFiat + t.totalFiat
        totalSellAmount := st.totalSellAmount + t.amount
        totalBuyAmount := st.totalBuyAmount - t.amount }) ∧
    (avgRun [⟨"BUY", 10, 10, 100, 0⟩, ⟨"BUY", 10, 20, 200, 0⟩]).weightedAverageCost
        = 15 ∧
    (calculateAverageProfit c3AvgTrades).realizedProfitFiat = 25 := by
  refine ⟨?_, ?_, by decide, by decide⟩
  · intro st t h
    simp [avgStep, h]
  · intro st t h
    simp [avgStep, h]

/-- C3 amended witness: the BUY and SELL step equations evaluated at a
concrete state. -/
theorem c3_average_guard_amended_witness :
    avgStep (AvgState.mk 100 0 10 0 0 10) ⟨"BUY", 10, 20, 200, 0⟩
        = AvgState.mk 300 0 20 0 0 15 ∧
    avgStep (AvgState.mk 300 0 20 0 0 15) ⟨"SELL", 5, 20, 100, 0⟩
        = AvgState.mk 300 100 15 5 25 15 := by
  constructor
  · have h := c3_average_guard_amended.1 (AvgState.mk 100 0 10 0 0 10)
      ⟨"BUY", 10, 20, 200, 0⟩ (by decide)
    rw [h]
    decide
  · have h := c3_average_guard_amended.2.1 (AvgState.mk 300 0 20 0 0 15)
      ⟨"SELL", 5, 20, 100, 0⟩ (by decide)
    rw [h]
    decide

/-- C4 counterexample: for a buy of 5 and a sell of 3, the FIFO summary
reports totalBuyAmount 5 but the AVERAGE summary reports 2, because the
AVERAGE method decrements its running buy amount on every sell. -/
theorem c4_totals_counterexample :
    (calculateFIFOProfit c4Trades).totalBuyAmount = 5 ∧
    (calculateAverageProfit c4Trades).totalBuyAmount = 2 ∧
    (calculateFIFOProfit c4Trades).totalBuyAmount
      ≠ (calculateAverageProfit c4Trades).totalBuyAmount :=
  ⟨by decide, by decide, by decide⟩

/-- C4 amended: totalBuyFiat, totalSellFiat and totalSellAmount are
method-independent, but totalBuyAmount is not: FIFO reports the rounded sum
of buy amounts while AVERAGE reports the rounded sum of buy amounts minus
sell amounts, so the two agree only when the rounded sell decrement
vanishes (in particular for sequences with no sells). -/
theorem c4_totals_amended (ts : List TradeR) :
    (calculateFIFOProfit ts).totalBuyFiat
        = (calculateAverageProfit ts).totalBuyFiat ∧
    (calculateFIFOProfit ts).totalSellFiat
        = (calculateAverageProfit ts).totalSellFiat ∧
    (calculateFIFOProfit ts).totalSellAmount
        = (calculateAverageProfit ts).totalSellAmount ∧
    (calculateFIFOProfit ts).totalBuyAmount = round2 (buyAmountSum ts) ∧
    (calculateAverageProfit ts).totalBuyAmount
        = round2 (buyAmountSum ts - sellAmountSum ts) := by
  obtain ⟨h1, h2, h3, h4⟩ := avgFold_totals ts avgInit
  have e1 : (calculateAverageProfit ts).totalBuyFiat
      = round2 (buyFiatSum ts) := by
    simp only [calculateAverageProfit, avgRaw, avgRun, roundSummary]
    rw [h1]
    simp [avgInit]
  have e2 : (calculateAverageProfit ts).totalSellFiat
      = round2 (sellFiatSum ts) := by
    simp only [calculateAverageProfit, avgRaw, avgRun, roundSummary]
    rw [h2]
    simp [avgInit]
  have e3 : (calculateAverageProfit ts).totalSellAmount
      = round2 (sellAmountSum ts) := by
    simp only [calculateAverageProfit, avgRaw, avgRun, roundSummary]
    rw [h3]
    simp [avgInit]
  have e4 : (calculateAverageProfit ts).totalBuyAmount
      = round2 (buyAmountSum ts - sellAmountSum ts) := by
    simp only [calculateAverageProfit, avgRaw, avgRun, roundSummary]
    rw [h4]
    simp [avgInit]
  exact ⟨e1.symm, e2.symm, e3.symm, rfl, e4⟩

/-- C5: when cumulative sells exceed cumulative buys, the AVERAGE method
still returns a summary whose inventoryRemaining is the rounded (negative)
difference of buys minus sells, not clamped to zero. -/
theorem c5_average_oversold (ts : List TradeR)
    (h : buyAmountSum ts < sellAmountSum ts) :
    (calculateAverageProfit ts).inventoryRemaining
        = round2 (buyAmountSum ts - sellAmountSum ts) ∧
    (calculateAverageProfit ts).inventoryRemaining ≤ 0 ∧
    buyAmountSum ts - sellAmountSum ts < 0 := by
  obtain ⟨h1, h2, h3, h4⟩ := avgFold_totals ts avgInit
  have hneg : buyAmountSum ts - sellAmountSum ts < 0 := sub_neg.mpr h
  have e : (calculateAverageProfit ts).inventoryRemaining
      = round2 (buyAmountSum ts - sellAmountSum ts) := by
    simp only [calculateAverageProfit, avgRaw, avgRun, roundSummary]
    rw [h4]
    simp [avgInit]
  exact ⟨e, e ▸ round2_nonpos _ hneg, hneg⟩

/-- C5 witness: a buy of 5 oversold by a sell of 8 reports inventory -3. -/
theorem c5_average_oversold_witness :
    (calculateAverageProfit c5Trades).inventoryRemaining
        = round2 (buyAmountSum c5Trades - sellAmountSum c5Trades) ∧
    (calculateAverageProfit c5Trades).inventoryRemaining ≤ 0 ∧
    buyAmountSum c5Trades - sellAmountSum c5Trades < 0 :=
  c5_average_oversold c5Trades (by decide)

/-- C6 counterexample: the /weekly route handler reports weeklyProfit 25
for a Tuesday/Wednesday pair with daily profits 10 and 25 (the LAST day's
value, not the sum 35), and it groups by Sunday-start weeks: on a Sunday
(day 3) its week key differs from the Monday-start key. -/
theorem c6_weekly_rollup_counterexample :
    routeWeekly [c6RouteDayA, c6RouteDayB] = [⟨3, 35, 25⟩] ∧
    (25 : ℚ) ≠ 10 + 25 ∧
    weekStartSunday 3 ≠ getWeekStart 3 :=
  ⟨by decide, by decide, by decide⟩

/-- C6 amended: the helper aggregateToWeekly does behave as claimed — its
week key is the Monday of the day's week, and a run of days in one week
produces a single bucket whose dailyProfit (and amounts and fiat) is the
SUM over the days and whose cumulativeProfit is the LAST day's value; the
/weekly route handler instead groups by Sunday-start weeks and overwrites
its weeklyProfit with the last day's dailyProfit. -/
theorem c6_weekly_rollup_amended :
    (∀ d : ℤ, jsDayOfWeek (getWeekStart d) = 1 ∧ getWeekStart d ≤ d ∧
      d - getWeekStart d < 7) ∧
    (∀ (d : DayPoint) (ds : List DayPoint),
      (∀ e ∈ d :: ds, getWeekStart e.date = getWeekStart d.date) →
      aggregateToWeekly (d :: ds)
        = [{ weekStart := getWeekStart d.date,
             buyAmount := ((d :: ds).map (fun e => e.buyAmount)).sum,
             sellAmount := ((d :: ds).map (fun e => e.sellAmount)).sum,
             buyFiat := ((d :: ds).map (fun e => e.buyFiat)).sum,
             sellFiat := ((d :: ds).map (fun e => e.sellFiat)).sum,
             dailyProfit := ((d :: ds).map (fun e => e.dailyProfit)).sum,
             cumulativeProfit := (ds.map (fun e => e.cumulativeProfit)).getLastD
               d.cumulativeProfit }]) := by
  constructor
  · intro d
    refine ⟨?_, ?_, ?_⟩ <;>
      simp only [getWeekStart, jsDayOfWeek] <;> split_ifs <;> omega
  · intro d ds h
    have hd : ∀ e ∈ ds, getWeekStart e.date = getWeekStart d.date :=
      fun e he => h e (List.mem_cons_of_mem d he)
    rw [aggregateToWeekly, List.foldl_cons]
    have h0 : updateBuckets (getWeekStart d.date) d []
        = [bucketAdd ⟨getWeekStart d.date, 0, 0, 0, 0, 0, 0⟩ d] := rfl
    rw [h0]
    rw [weeklyFold_single ds (bucketAdd ⟨getWeekStart d.date, 0, 0, 0, 0, 0, 0⟩ d)
      (fun e he => by rw [hd e he]; rfl)]
    simp [sortBuckets, insortBucket, bucketAdd]

/-- C6 amended witness: three consecutive days Monday to Wednesday with
daily profits 10, 15, 15 and cumulative profits 10, 25, 40 roll up to one
bucket with dailyProfit 40 summed and cumulativeProfit 40 carried from the
last day. -/
theorem c6_weekly_rollup_amended_witness :
    aggregateToWeekly [c6DayA, c6DayB, c6DayC]
      = [{ weekStart := getWeekStart c6DayA.date,
           buyAmount := (([c6DayA, c6DayB, c6DayC]).map (fun e => e.buyAmount)).sum,
           sellAmount := (([c6DayA, c6DayB, c6DayC]).map (fun e => e.sellAmount)).sum,
           buyFiat := (([c6DayA, c6DayB, c6DayC]).map (fun e => e.buyFiat)).sum,
           sellFiat := (([c6DayA, c6DayB, c6DayC]).map (fun e => e.sellFiat)).sum,
           dailyProfit := (([c6DayA, c6DayB, c6DayC]).map (fun e => e.dailyProfit)).sum,
           cumulativeProfit := (([c6DayB, c6DayC]).map (fun e => e.cumulativeProfit)).getLastD
             c6DayA.cumulativeProfit }] :=
  c6_weekly_rollup_amended.2 c6DayA [c6DayB, c6DayC] (by decide)

/-- C7: both summaries are exactly the raw (unrounded) aggregates with the
2-decimal rounding applied once, field by field, at the output boundary,
and every numeric summary field is an integer number of hundredths. -/
theorem c7_rounding_boundary (ts : List TradeR) :
    calculateFIFOProfit ts = roundSummary "FIFO" (fifoRaw ts) ∧
    calculateAverageProfit ts = roundSummary "AVERAGE" (avgRaw ts) ∧
    isCent (calculateFIFOProfit ts).realizedProfitFiat ∧
    isCent (calculateFIFOProfit ts).totalBuyFiat ∧
    isCent (calculateFIFOProfit ts).totalSellFiat ∧
    isCent (calculateFIFOProfit ts).totalBuyAmount ∧
    isCent (calculateFIFOProfit ts).totalSellAmount ∧
    isCent (calculateFIFOProfit ts).avgBuyPrice ∧
    isCent (calculateFIFOProfit ts).avgSellPrice ∧
    isCent (calculateFIFOProfit ts).inventoryRemaining ∧
    isCent (calculateAverageProfit ts).realizedProfitFiat ∧
    isCent (calculateAverageProfit ts).totalBuyFiat ∧
    isCent (calculateAverageProfit ts).totalSellFiat ∧
    isCent (calculateAverageProfit ts).totalBuyAmount ∧
    isCent (calculateAverageProfit ts).totalSellAmount ∧
    isCent (calculateAverageProfit ts).avgBuyPrice ∧
    isCent (calculateAverageProfit ts).avgSellPrice ∧
    isCent (calculateAverageProfit ts).inventoryRemaining :=
  ⟨rfl, rfl,
   isCent_round2 _, isCent_round2 _, isCent_round2 _, isCent_round2 _,
   isCent_round2 _, isCent_round2 _, isCent_round2 _, isCent_round2 _,
   isCent_round2 _, isCent_round2 _, isCent_round2 _, isCent_round2 _,
   isCent_round2 _, isCent_round2 _, isCent_round2 _, isCent_round2 _⟩

/-- C8: setMethod rejects every string other than FIFO and AVERAGE with the
descriptive invalid-method error, the orchestration then yields that error
and no summary at all, and both valid methods select their calculator. -/
theorem c8_method_validation :
    (∀ m : String, m ≠ "FIFO" → m ≠ "AVERAGE" →
      setMethod m = Except.error "Invalid method. Must be FIFO or AVERAGE" ∧
      ∀ ts : List TradeR, computeRealizedProfit m ts
        = Except.error "Invalid method. Must be FIFO or AVERAGE") ∧
    setMethod "FIFO" = Except.ok "FIFO" ∧
    setMethod "AVERAGE" = Except.ok "AVERAGE" ∧
    (∀ ts : List TradeR,
      computeRealizedProfit "FIFO" ts = Except.ok (calculateFIFOProfit ts)) ∧
    (∀ ts : List TradeR,
      computeRealizedProfit "AVERAGE" ts
        = Except.ok (calculateAverageProfit ts)) := by
  refine ⟨?_, rfl, rfl, fun ts => rfl, fun ts => ?_⟩
  · intro m h1 h2
    have hm : ¬(m = "FIFO" ∨ m = "AVERAGE") := by
      rintro (h | h) <;> [exact h1 h; exact h2 h]
    constructor
    · simp [setMethod, hm]
    · intro ts
      simp [computeRealizedProfit, setMethod, hm]
  · simp [computeRealizedProfit, setMethod]

/-- C8 witness: the unknown method LIFO is rejected by setMethod and by the
orchestration, which returns the error and no partial summary. -/
theorem c8_method_validation_witness :
    setMethod "LIFO" = Except.error "Invalid method. Must be FIFO or AVERAGE" ∧
    computeRealizedProfit "LIFO" []
      = Except.error "Invalid method. Must be FIFO or AVERAGE" :=
  ⟨(c8_method_validation.1 "LIFO" (by decide) (by decide)).1,
   (c8_method_validation.1 "LIFO" (by decide) (by decide)).2 []⟩

/-- C9 counterexample: a trade record with a negative amount fed to the
profit computation is processed, not excluded — the summary counts its
amount, so the computation differs from the one with the record removed. -/
theorem c9_validation_counterexample :
    (calculateFIFOProfit [c9MalformedTrade]).totalBuyAmount = -5 ∧
    (calculateFIFOProfit []).totalBuyAmount = 0 ∧
    calculateFIFOProfit [c9MalformedTrade] ≠ calculateFIFOProfit [] :=
  ⟨by decide, by decide, by decide⟩

set_option maxHeartbeats 1600000 in
/-- C9 amended: the exclusion of malformed records happens at CSV import,
not in the profit computation: transformRow maps a row with a missing,
unparseable or non-positive amount, price or totalFiat to none, and
parseCSV drops such rows while continuing with the rest of the batch; a
fully valid row is kept. (The drop is only logged to the console in the
source, not surfaced to the caller as a count or list.) -/
theorem c9_malformed_row_amended :
    (∀ r : RawRow,
      badNum r.amount = true ∨ badNum r.price = true ∨
        badNum r.totalFiat = true →
      transformRow r = none) ∧
    (∀ (pre post : List RawRow) (r : RawRow), transformRow r = none →
      parseCSV (pre ++ r :: post) = parseCSV pre ++ parseCSV post) ∧
    transformRow c9GoodRow = some ⟨"o1", "BUY", 10, 5, 50, 0⟩ := by
  refine ⟨?_, ?_, by decide⟩
  · intro r h
    rcases r with ⟨oid, side, price, amount, total, fee⟩
    simp only [badNum] at h
    rcases h with h | h | h
    · rcases amount with _ | _ | q
      · simp [transformRow, parseNum, requireNum]
      · simp [transformRow, parseNum]
      · have hq : q ≤ 0 := of_decide_eq_true h
        rcases lt_or_eq_of_le hq with hlt | heq
        · have hp : parseNum (RawNum.val q) = none := by simp [parseNum, hlt]
          simp [transformRow, hp]
        · subst heq
          have hp : parseNum (RawNum.val 0) = some (some 0) := by
            simp [parseNum]
          have hr : requireNum (some 0) = none := by simp [requireNum]
          simp [transformRow, hp, hr]
    · rcases price with _ | _ | q
      · simp [transformRow, parseNum, requireNum]
      · simp [transformRow, parseNum]
      · have hq : q ≤ 0 := of_decide_eq_true h
        rcases lt_or_eq_of_le hq with hlt | heq
        · have hp : parseNum (RawNum.val q) = none := by simp [parseNum, hlt]
          simp [transformRow, hp]
        · subst heq
          have hp : parseNum (RawNum.val 0) = some (some 0) := by
            simp [parseNum]
          have hr : requireNum (some 0) = none := by simp [requireNum]
          simp [transformRow, hp, hr]
    · rcases total with _ | _ | q
      · simp [transformRow, parseNum, requireNum]
      · simp [transformRow, parseNum]
      · have hq : q ≤ 0 := of_decide_eq_true h
        rcases lt_or_eq_of_le hq with hlt | heq
        · have hp : parseNum (RawNum.val q) = none := by simp [parseNum, hlt]
          simp [transformRow, hp]
        · subst heq
          have hp : parseNum (RawNum.val 0) = some (some 0) := by
            simp [parseNum]
          have hr : requireNum (some 0) = none := by simp [requireNum]
          simp [transformRow, hp, hr]
  · intro pre post r h
    simp [parseCSV, List.filterMap_append, List.filterMap_cons, h]

/-- C9 amended witness: the row with amount -5 is dropped and a surrounding
batch of valid rows parses as if it were absent. -/
theorem c9_malformed_row_amended_witness :
    transformRow c9BadRow = none ∧
    parseCSV ([c9GoodRow] ++ c9BadRow :: [c9GoodRow])
      = parseCSV [c9GoodRow] ++ parseCSV [c9GoodRow] :=
  ⟨c9_malformed_row_amended.1 c9BadRow (Or.inl (by decide)),
   c9_malformed_row_amended.2.1 [c9GoodRow] [c9GoodRow] c9BadRow (by decide)⟩

/-- C10: with non-negative trade amounts every lot's remaining amount stays
non-negative, so FIFO inventoryRemaining is never negative; a sell that
empties the queue contributes nothing further (the unmatched remainder is
left alone); the AVERAGE method, by contrast, reports a negative inventory
on the same kind of oversold input. -/
theorem c10_fifo_inventory_nonneg (ts : List TradeR)
    (h : ∀ t ∈ ts, 0 ≤ t.amount) :
    0 ≤ (calculateFIFOProfit ts).inventoryRemaining ∧
    (∀ sp sa sf rem, sellLoop sp sa sf rem [] = (0, [])) ∧
    (calculateAverageProfit c10OversoldTrades).inventoryRemaining < 0 := by
  refine ⟨?_, fun sp sa sf rem => rfl, by decide⟩
  have hq : ∀ l ∈ fifoBuys ts, 0 ≤ l.amount := by
    intro l hl
    rcases List.mem_map.mp hl with ⟨t, ht, rfl⟩
    exact h t (List.mem_of_mem_filter ht)
  have hfin : ∀ l ∈ (fifoProcess (fifoSells ts) (fifoBuys ts)).2, 0 ≤ l.amount := by
    intro l hl
    exact fifoProcess_snd_nonneg (fifoSells ts) (0, fifoBuys ts) hq l hl
  have hsum : 0 ≤ ((fifoProcess (fifoSells ts) (fifoBuys ts)).2.map
      (fun l => l.amount)).sum := by
    apply List.sum_nonneg
    intro x hx
    rcases List.mem_map.mp hx with ⟨l, hl, rfl⟩
    exact hfin l hl
  exact round2_nonneg _ hsum

/-- C10 witness: a buy of 5 oversold by a sell of 9 still reports FIFO
inventory 0, never negative. -/
theorem c10_fifo_inventory_nonneg_witness :
    0 ≤ (calculateFIFOProfit c10WitnessTrades).inventoryRemaining :=
  (c10_fifo_inventory_nonneg c10WitnessTrades (by decide)).1
